import Mathlib

/-!
Shallow embedding of `_lldbtest/main.py`, an annotation-driven LLDB test
runner.  Pure functions of the Python source are translated to Lean
functions; LLDB `SBValue` handles are modelled by an inductive value tree
carrying exactly the fields the formatter inspects; Python exceptions are
modelled with `Except Unit`; the Python value `None` flowing through a
`str`-typed result is modelled with `Option String`.
-/

namespace LLDBTest

/-- Python `str.strip()` at the character-list level: drop leading and
trailing whitespace. -/
def trimChars (cs : List Char) : List Char :=
  ((cs.dropWhile Char.isWhitespace).reverse.dropWhile Char.isWhitespace).reverse

/-- Python `str.strip()` with no arguments. -/
def pyStrip (s : String) : String :=
  String.mk (trimChars s.toList)

/-- Python `str.startswith`. -/
def pyStartsWith (s p : String) : Bool :=
  (p.toList).isPrefixOf s.toList

/-- Python `in` on strings, for a single-character needle. -/
def pyContainsChar (s : String) (c : Char) : Bool :=
  (s.toList).contains c

/-- One step of the substring splitter: scan left to right with an
accumulator for the current piece; a separator occurrence closes the piece
and resumes after it via `rec` — Python `str.split(sep)` semantics, empty
pieces kept. -/
def splitOnStep (sep : List Char) (rec : List Char → List Char → List (List Char)) :
    List Char → List Char → List (List Char)
  | acc, [] => [acc.reverse]
  | acc, c :: rest =>
    if sep.isPrefixOf (c :: rest) then
      acc.reverse :: rec [] ((c :: rest).drop sep.length)
    else rec (c :: acc) rest

/-- The substring splitter, fueled: spelled with `Nat.rec` so the kernel can
evaluate it.  Each step consumes at least one character when `sep` is
nonempty, so `length + 1` fuel scans any list completely. -/
def splitOnFuel (sep : List Char) : Nat → List Char → List Char → List (List Char) :=
  fun fuel => @Nat.rec (fun _ => List Char → List Char → List (List Char))
    (fun _ _ => []) (fun _ rec => splitOnStep sep rec) fuel

/-- Python `s.split(sep)` for a nonempty separator: every occurrence splits,
empty pieces kept. -/
def pySplitOn (s sep : String) : List String :=
  match sep.toList with
  | [] => [s]
  | sl => (splitOnFuel sl (s.toList.length + 1) [] s.toList).map String.mk

/-- Python `sep.join(xs)`. -/
def pyJoin (sep : String) : List String → String
  | [] => ""
  | [x] => x
  | x :: y :: rest => x ++ sep ++ pyJoin sep (y :: rest)

/-- The accumulator loop of `pySplitWs`. -/
def splitWsAux : List Char → List Char → List String
  | acc, [] => if acc = [] then [] else [String.mk acc.reverse]
  | acc, c :: rest =>
    if c.isWhitespace then
      (if acc = [] then [] else [String.mk acc.reverse]) ++ splitWsAux [] rest
    else splitWsAux (c :: acc) rest

/-- Python `str.split()` with no arguments: split on runs of whitespace and
discard empty pieces. -/
def pySplitWs (s : String) : List String :=
  splitWsAux [] s.toList

/-- Python `s.strip(c)` for a single character `c`: remove every leading and
trailing occurrence of `c`. -/
def stripChar (c : Char) (s : String) : String :=
  String.mk (((s.toList.dropWhile (fun d => d = c)).reverse.dropWhile (fun d => d = c)).reverse)

/-- Python `s.lstrip('//')`: remove every leading `'/'` character (the strip
argument is a character set). -/
def stripLeadSlashes (s : String) : String :=
  String.mk (s.toList.dropWhile (fun d => d = '/'))

/-- Python `s.split(':', 1)`: `none` when `s` has no colon (one part),
otherwise the part before the first colon and everything after it. -/
def pySplitColon1 (s : String) : Option (String × String) :=
  match pySplitOn s ":" with
  | [_] => none
  | x :: rest => some (x, pyJoin ":" rest)
  | [] => none

/-- Value of a nonempty list of decimal digit characters. -/
def decDigits? (cs : List Char) : Option Nat :=
  if cs = [] then none
  else cs.foldl (fun acc c =>
    match acc with
    | none => none
    | some n => if c.isDigit then some (n * 10 + (c.toNat - 48)) else none) (some 0)

/-- Python `int(s)` on a decimal literal: surrounding whitespace stripped,
optional sign, digits; `none` models the `ValueError`/`TypeError` raise. -/
def pyInt? (s : String) : Option Int :=
  match (pyStrip s).toList with
  | '-' :: rest => (decDigits? rest).map (fun n => -(n : Int))
  | '+' :: rest => (decDigits? rest).map (fun n => (n : Int))
  | cs => (decDigits? cs).map (fun n => (n : Int))

/-- Value of one hexadecimal digit character. -/
def hexDigit? (c : Char) : Option Nat :=
  if c.isDigit then some (c.toNat - 48)
  else if 'a' ≤ c ∧ c ≤ 'f' then some (c.toNat - 87)
  else if 'A' ≤ c ∧ c ≤ 'F' then some (c.toNat - 55)
  else none

/-- Value of a nonempty list of hexadecimal digit characters. -/
def hexDigits? (cs : List Char) : Option Nat :=
  if cs = [] then none
  else cs.foldl (fun acc c =>
    match acc with
    | none => none
    | some n =>
      match hexDigit? c with
      | some d => some (n * 16 + d)
      | none => none) (some 0)

/-- Python `int(s, 16)` on the nonnegative pointer strings LLDB produces:
optional `0x`/`0X` prefix then hex digits; `none` models the raise. -/
def pyHex? (s : String) : Option Nat :=
  match (pyStrip s).toList with
  | '0' :: 'x' :: rest => hexDigits? rest
  | '0' :: 'X' :: rest => hexDigits? rest
  | cs => hexDigits? cs

/-- Python `None` raising conversions such as `int(None)`: a missing value
becomes a raised exception. -/
def optToExcept : Option α → Except Unit α
  | some a => .ok a
  | none => .error ()

/-- `lldb.eTypeClass…` constants as far as `format_value` distinguishes
them: `eTypeClassStruct`, `eTypeClassClass`, and everything else. -/
inductive TypeClass where
  | cStruct
  | cClass
  | cOther
deriving DecidableEq

/-- Model of an `lldb.SBValue` handle, carrying exactly the observations the
formatter makes: validity, `GetTypeName`, `GetType().GetTypeClass()`,
`GetType().IsArrayType()`, `GetType().GetArrayElementType().GetName()`,
`GetValue()`, `GetSummary()`, the named/indexed children, and — for a
pointer-typed value — the pointee byte size (`GetPointeeType().GetByteSize()`)
and the value tree read back from any address with the pointee type
(`target.CreateValueFromAddress`).  `cstrRead a n` models
`process.ReadCStringFromMemory(a, n, error)`, which returns a `str`. -/
inductive Val where
  | invalid : Val
  | node (typeName : String) (typeClass : TypeClass) (isArrayType : Bool)
      (arrayElemTypeName : String)
      (value : Option String) (summary : Option String)
      (children : List (String × Val))
      (ptrMem : Nat → Val) (ptrElemSize : Nat)
      (cstrRead : Nat → Nat → String) : Val

/-- `SBValue.IsValid()`. -/
def Val.isValid : Val → Bool
  | .invalid => false
  | .node _ _ _ _ _ _ _ _ _ _ => true

/-- `SBValue.GetTypeName()` (also `GetType().GetName()`). -/
def Val.getTypeName : Val → String
  | .invalid => ""
  | .node tn _ _ _ _ _ _ _ _ _ => tn

/-- `GetType().GetTypeClass()`. -/
def Val.getTypeClass : Val → TypeClass
  | .invalid => .cOther
  | .node _ tc _ _ _ _ _ _ _ _ => tc

/-- `GetType().IsArrayType()`. -/
def Val.isArrayTypeB : Val → Bool
  | .invalid => false
  | .node _ _ a _ _ _ _ _ _ _ => a

/-- `GetType().GetArrayElementType().GetName()`. -/
def Val.arrayElemTypeName : Val → String
  | .invalid => ""
  | .node _ _ _ ae _ _ _ _ _ _ => ae

/-- `SBValue.GetValue()`: `None` on an invalid handle. -/
def Val.getValue : Val → Option String
  | .invalid => none
  | .node _ _ _ _ v _ _ _ _ _ => v

/-- `SBValue.GetSummary()`: `None` on an invalid handle. -/
def Val.getSummary : Val → Option String
  | .invalid => none
  | .node _ _ _ _ _ s _ _ _ _ => s

/-- The named children with declaration order (`GetNumChildren`,
`GetChildAtIndex`, `GetName` of each child). -/
def Val.children : Val → List (String × Val)
  | .invalid => []
  | .node _ _ _ _ _ _ cs _ _ _ => cs

/-- `GetType().GetPointeeType().GetByteSize()` of a pointer value. -/
def Val.ptrElemSize : Val → Nat
  | .invalid => 0
  | .node _ _ _ _ _ _ _ _ sz _ => sz

/-- `target.CreateValueFromAddress` at a given address with this pointer
value's pointee type. -/
def Val.ptrMem : Val → Nat → Val
  | .invalid, _ => .invalid
  | .node _ _ _ _ _ _ _ m _ _, a => m a

/-- `process.ReadCStringFromMemory(addr, n, error)` as observed while
formatting this value. -/
def Val.cstrRead : Val → Nat → Nat → String
  | .invalid, _, _ => ""
  | .node _ _ _ _ _ _ _ _ _ r, a, n => r a n

/-- `SBValue.GetChildMemberWithName(name)`: the named child, or an invalid
handle when there is none. -/
def Val.childNamed (v : Val) (name : String) : Val :=
  ((v.children).lookup name).getD .invalid

/-- `LLDBDebugger.type_mapping` (main.py lines 64-68). -/
def type_mapping : List (String × String) :=
  [("long", "int"), ("unsigned long", "uint")]

/-- Python f-string interpolation of a `str | None` value: `None` renders as
the text `None`. -/
def pyOptStr : Option String → String
  | some s => s
  | none => "None"

/-- Python truthiness of a `str | None` value. -/
def pyTruthyStr : Option String → Bool
  | some s => s ≠ ""
  | none => false

/-- `LLDBDebugger.format_string` (main.py lines 188-198): prefer the quoted
summary; otherwise read the `{data, len}` pair and materialize `len + 1`
bytes from memory, but only when both `data` and `len` are truthy. -/
def format_string (v : Val) : Except Unit String :=
  match v.getSummary with
  | some summary => .ok (stripChar '"' summary)
  | none =>
    let data := (v.childNamed "data").getValue
    match optToExcept ((v.childNamed "len").getValue) with
    | .error e => .error e
    | .ok lenStr =>
      match optToExcept (pyInt? lenStr) with
      | .error e => .error e
      | .ok length =>
        if pyTruthyStr data ∧ length ≠ 0 then
          match data with
          | none => .error ()
          | some d =>
            match optToExcept (pyHex? d) with
            | .error e => .error e
            | .ok addr => .ok (v.cstrRead addr (length + 1).toNat)
        else .ok "None"

/-- `LLDBDebugger.format_complex` (main.py lines 215-218): read the `real`
and `imag` members; a missing member's `GetValue()` renders as `None` inside
the f-string. -/
def format_complex (v : Val) : Except Unit String :=
  .ok (v.getTypeName ++ "(real = " ++ pyOptStr ((v.childNamed "real").getValue)
    ++ ", imag = " ++ pyOptStr ((v.childNamed "imag").getValue) ++ ")")

/-- The member loop of `format_struct` over a formatter `fv` for the
nested values: an f-string renders a `None` child value as the text
`None`. -/
def formatMembersF (fv : Val → Except Unit (Option String)) :
    List (String × Val) → Except Unit (List String)
  | [] => .ok []
  | (name, v) :: rest =>
    match fv v with
    | .error e => .error e
    | .ok cv =>
      match formatMembersF fv rest with
      | .error e => .error e
      | .ok rs => .ok ((name ++ " = " ++ pyOptStr cv) :: rs)

/-- `LLDBDebugger.format_struct` (main.py lines 200-213) over a formatter
for the nested values: render every child as `name = value`, optionally
preceded by the type name. -/
def format_structF (fv : Val → Except Unit (Option String)) (include_type : Bool)
    (v : Val) : Except Unit String :=
  match formatMembersF fv v.children with
  | .error e => .error e
  | .ok children =>
    let struct_content := "(" ++ pyJoin ", " children ++ ")"
    if include_type then .ok (v.getTypeName ++ struct_content)
    else .ok struct_content

/-- The element loop of `format_slice`/`format_array`: `', '.join` would
raise a `TypeError` on a `None` element, modelled by the `.error` branch. -/
def formatListF (fv : Val → Except Unit (Option String)) :
    List Val → Except Unit (List String)
  | [] => .ok []
  | v :: rest =>
    match fv v with
    | .error e => .error e
    | .ok none => .error ()
    | .ok (some s) =>
      match formatListF fv rest with
      | .error e => .error e
      | .ok rs => .ok (s :: rs)

/-- The element loop of `format_custom_array`. -/
def formatStructListF (fv : Val → Except Unit (Option String)) :
    List Val → Except Unit (List String)
  | [] => .ok []
  | v :: rest =>
    match format_structF fv false v with
    | .error e => .error e
    | .ok s =>
      match formatStructListF fv rest with
      | .error e => .error e
      | .ok rs => .ok (s :: rs)

/-- `LLDBDebugger.format_slice` (main.py lines 138-159) over a formatter for
the elements: parse the `len` member, parse the `data` pointer, recursively
format the value at `base + i * element_size` for each `i`, alias the
element type name taken from the slice type name after `[]`, and render
`[]T[e0, e1, ...]`. -/
def format_sliceF (fv : Val → Except Unit (Option String)) (v : Val) :
    Except Unit String :=
  match optToExcept ((v.childNamed "len").getValue) with
  | .error e => .error e
  | .ok lenStr =>
    match optToExcept (pyInt? lenStr) with
    | .error e => .error e
    | .ok length =>
      let data_ptr := v.childNamed "data"
      match optToExcept data_ptr.getValue with
      | .error e => .error e
      | .ok ptrStr =>
        match optToExcept (pyHex? ptrStr) with
        | .error e => .error e
        | .ok ptr_value =>
          let element_size := data_ptr.ptrElemSize
          match formatListF fv
              ((List.range length.toNat).map
                (fun i => data_ptr.ptrMem (ptr_value + i * element_size))) with
          | .error e => .error e
          | .ok elements =>
            let type_name := (pySplitOn v.getTypeName "[]").getLastD ""
            let type_name := (type_mapping.lookup type_name).getD type_name
            .ok ("[]" ++ type_name ++ "[" ++ pyJoin ", " elements ++ "]")

/-- `LLDBDebugger.format_array` (main.py lines 161-169) over a formatter for
the elements: format every child, alias the array element type name, render
`[N]T[e0, e1, ...]`. -/
def format_arrayF (fv : Val → Except Unit (Option String)) (v : Val) :
    Except Unit String :=
  match formatListF fv ((v.children).map (fun c => c.2)) with
  | .error e => .error e
  | .ok elements =>
    let array_size := (v.children).length
    let type_name := v.arrayElemTypeName
    let type_name := (type_mapping.lookup type_name).getD type_name
    .ok ("[" ++ toString array_size ++ "]" ++ type_name ++ "["
      ++ pyJoin ", " elements ++ "]")

/-- `LLDBDebugger.format_custom_array` (main.py lines 171-179) over a
formatter for the nested values: format every child through the struct
formatter with the type name omitted; the element type name is not passed
through the alias table here. -/
def format_custom_arrayF (fv : Val → Except Unit (Option String)) (v : Val) :
    Except Unit String :=
  match formatStructListF fv ((v.children).map (fun c => c.2)) with
  | .error e => .error e
  | .ok elements =>
    .ok ("[" ++ toString (v.children).length ++ "]" ++ v.arrayElemTypeName ++ "["
      ++ pyJoin ", " elements ++ "]")

/-- `LLDBDebugger.format_value` (main.py lines 108-136) over a formatter for
the nested values: type-directed dispatch, first match wins.  Every Python
`return` of this function and of the formatters it dispatches to returns a
`str`, hence every `.ok` result below carries `some`. -/
def format_valueF (fv : Val → Except Unit (Option String)) (v : Val) :
    Except Unit (Option String) :=
  if v.isValid then
    if pyStartsWith v.getTypeName "[]" then
      Option.some <$> format_sliceF fv v
    else if v.isArrayTypeB then
      if v.getTypeClass = .cStruct ∨ v.getTypeClass = .cClass then
        Option.some <$> format_custom_arrayF fv v
      else
        Option.some <$> format_arrayF fv v
    else if v.getTypeName = "string" then
      Option.some <$> format_string v
    else if v.getTypeName = "complex64" ∨ v.getTypeName = "complex128" then
      Option.some <$> format_complex v
    else if v.getTypeClass = .cStruct ∨ v.getTypeClass = .cClass then
      Option.some <$> format_structF fv true v
    else
      match v.getValue with
      | some value => .ok (some value)
      | none =>
        match v.getSummary with
        | some s => .ok (some s)
        | none => .ok (some "None")
  else .ok (some "None")

/-- `LLDBDebugger.format_value` with the unbounded Python recursion bounded
by `fuel`, exhaustion modelled as a raise.  Spelled with `Nat.rec` so the
kernel can evaluate it on concrete inputs;
`format_value (fuel + 1) v = format_valueF (format_value fuel) v` holds
definitionally. -/
def format_value : Nat → Val → Except Unit (Option String) := fun fuel =>
  @Nat.rec (fun _ => Val → Except Unit (Option String))
    (fun _ => Except.error ()) (fun _ fv => format_valueF fv) fuel

/-- `LLDBDebugger.format_slice` at recursion budget `fuel` for the nested
values. -/
def format_slice (fuel : Nat) : Val → Except Unit String :=
  format_sliceF (format_value fuel)

/-- `LLDBDebugger.format_array` at recursion budget `fuel`. -/
def format_array (fuel : Nat) : Val → Except Unit String :=
  format_arrayF (format_value fuel)

/-- `LLDBDebugger.format_custom_array` at recursion budget `fuel`. -/
def format_custom_array (fuel : Nat) : Val → Except Unit String :=
  format_custom_arrayF (format_value fuel)

/-- `LLDBDebugger.format_struct` at recursion budget `fuel`. -/
def format_struct (fuel : Nat) : Bool → Val → Except Unit String :=
  format_structF (format_value fuel)

/-- The slice/array element loop at recursion budget `fuel`. -/
def formatList (fuel : Nat) : List Val → Except Unit (List String) :=
  formatListF (format_value fuel)

/-- The struct-array element loop at recursion budget `fuel`. -/
def formatStructList (fuel : Nat) : List Val → Except Unit (List String) :=
  formatStructListF (format_value fuel)

/-- The struct member loop at recursion budget `fuel`. -/
def formatMembers (fuel : Nat) : List (String × Val) → Except Unit (List String) :=
  formatMembersF (format_value fuel)

/-- The name normalization of `LLDBDebugger.get_variable_value` (main.py
lines 101-103): keep the text before the first `=`, trim it, and when a
`(` is present keep the text after the last `(`, trimmed again. -/
def normalize_name (var_name : String) : String :=
  let actual := pyStrip ((pySplitOn var_name "=").headD var_name)
  if pyContainsChar actual '(' then pyStrip ((pySplitOn actual "(").getLastD actual)
  else actual

/-- A stopped frame: the variables `frame.FindVariable` can resolve. -/
def FindVariable (frame : List (String × Val)) (name : String) : Val :=
  (frame.lookup name).getD .invalid

/-- `LLDBDebugger.get_variable_value` (main.py lines 95-106) on a string
argument: normalize the name, resolve it in the frame (an unknown name
yields an invalid handle, not `None`), and format the result.  The
`isinstance(var_name, lldb.SBValue)` branch is omitted: it is only
reachable from `format_pointer`, which no code path calls. -/
def get_variable_value (fuel : Nat) (frame : List (String × Val))
    (var_name : String) : Except Unit (Option String) :=
  format_value fuel (FindVariable frame (normalize_name var_name))

/-- The `Test` dataclass (main.py lines 15-20); the Python field `variable`
is spelled `var_name` because `variable` is a Lean keyword. -/
structure Test where
  source_file : String
  line_number : Nat
  var_name : String
  expected_value : String
deriving DecidableEq

/-- The two shapes of `TestResult.actual`: a rendered value string, or the
set of in-scope variable names. -/
inductive ActualV where
  | str (s : String)
  | names (ns : Finset String)
deriving DecidableEq

/-- The `TestResult` dataclass (main.py lines 23-30). -/
structure TestResult where
  test : Test
  status : String
  actual : Option ActualV := none
  message : Option String := none
  missing : Option (Finset String) := none
  extra : Option (Finset String) := none
deriving DecidableEq

/-- The `TestCase` dataclass (main.py lines 33-38). -/
structure TestCase where
  source_file : String
  start_line : Nat
  end_line : Nat
  tests : List Test
deriving DecidableEq

/-- The `CaseResult` dataclass (main.py lines 41-45). -/
structure CaseResult where
  test_case : TestCase
  function : String
  results : List TestResult
deriving DecidableEq

/-- The `TestResults` dataclass (main.py lines 48-53). -/
structure TestResults where
  total : Nat := 0
  passed : Nat := 0
  failed : Nat := 0
  case_results : List CaseResult := []
deriving DecidableEq

/-- `execute_all_variables_test` (main.py lines 397-412): compare the
whitespace-split expected names, as a set, with the captured in-scope name
set; on mismatch record `missing = expected - actual` and
`extra = actual - expected`. -/
def execute_all_variables_test (test : Test) (all_variable_names : Finset String) :
    TestResult :=
  let expected_vars := (pySplitWs test.expected_value).toFinset
  if expected_vars = all_variable_names then
    { test := test, status := "pass", actual := some (.names all_variable_names) }
  else
    { test := test, status := "fail", actual := some (.names all_variable_names),
      missing := some (expected_vars \ all_variable_names),
      extra := some (all_variable_names \ expected_vars) }

/-- `execute_single_variable_test` (main.py lines 415-441): fetch and format
the variable; the `error` outcome is produced only when `get_variable_value`
returns `None`; otherwise compare the trimmed actual and expected strings. -/
def execute_single_variable_test (fuel : Nat) (frame : List (String × Val))
    (test : Test) : Except Unit TestResult :=
  match get_variable_value fuel frame test.var_name with
  | .error e => .error e
  | .ok actual_value =>
    match actual_value with
    | none =>
      .ok { test := test, status := "error", message := some "Unable to fetch value" }
    | some av =>
      let av := pyStrip av
      let ev := pyStrip test.expected_value
      if av = ev then .ok { test := test, status := "pass", actual := some (.str av) }
      else .ok { test := test, status := "fail", actual := some (.str av) }

/-- What one stop at a breakpoint exposes: the current function name
(`get_current_function_name`), the in-scope name set
(`get_all_variable_names`), and the frame used by `FindVariable`. -/
structure StopInfo where
  functionName : String
  allVarNames : Finset String
  frame : List (String × Val)

/-- The check loop of `execute_test_case` (main.py lines 387-392): sentinel
checks go to the set comparison, other checks to the single-variable test;
an exception mid-loop propagates. -/
def run_checks (fuel : Nat) (stop : StopInfo) : List Test → Except Unit (List TestResult)
  | [] => .ok []
  | t :: rest =>
    let step :=
      if t.var_name = "all variables" then
        Except.ok (execute_all_variables_test t stop.allVarNames)
      else execute_single_variable_test fuel stop.frame t
    match step with
    | .error e => .error e
    | .ok r =>
      match run_checks fuel stop rest with
      | .error e => .error e
      | .ok rs => .ok (r :: rs)

/-- `execute_test_case` (main.py lines 384-394). -/
def execute_test_case (fuel : Nat) (stop : StopInfo) (tc : TestCase) :
    Except Unit CaseResult :=
  match run_checks fuel stop tc.tests with
  | .error e => .error e
  | .ok results =>
    .ok { test_case := tc, function := stop.functionName, results := results }

/-- The backend behaviour observed while processing one test case:
whether `set_breakpoint` and `run_to_breakpoint` succeed (their failures
raise), the stop reached, and the value `run_console` returns when the
interactive console is entered (`false` = user aborted the run). -/
structure CaseEvents where
  breakpointOk : Bool
  stopOk : Bool
  stop : StopInfo
  consoleContinue : Bool

/-- Breakpoint actions performed against the target, indexed by the test
case position: `set_breakpoint` and `BreakpointDelete`. -/
inductive Act where
  | setBp (i : Nat)
  | delBp (i : Nat)
deriving DecidableEq

/-- `sum(1 for r in results if r.status == 'pass')`. -/
def countPass (l : List TestResult) : Nat :=
  (l.filter (fun r => r.status = "pass")).length

/-- `sum(1 for r in results if r.status != 'pass')`. -/
def countFail (l : List TestResult) : Nat :=
  (l.filter (fun r => r.status ≠ "pass")).length

/-- `any(r.status != 'pass' for r in results)`. -/
def anyNonPass (l : List TestResult) : Bool :=
  l.any (fun r => r.status ≠ "pass")

/-- The case loop of `execute_tests` (main.py lines 342-379), with the
accumulated `TestResults` threaded and the breakpoint actions traced.  Per
case: set the breakpoint (raise on failure), run to the stop (raise on
failure), execute the checks, fold the counts and append the case result;
in interactive mode with a non-pass outcome run the console and `break`
out — without deleting the breakpoint — when the user aborted; otherwise
delete the case's breakpoint and continue.  The post-console process-state
normalization (lines 371-377) has no observable effect in this model. -/
def execute_tests_loop (fuel : Nat) (events : Nat → CaseEvents) (interactive : Bool) :
    List TestCase → Nat → TestResults → Except Unit TestResults × List Act
  | [], _, acc => (.ok acc, [])
  | tc :: rest, i, acc =>
    let ev := events i
    if ev.breakpointOk = false then (.error (), [])
    else if ev.stopOk = false then (.error (), [Act.setBp i])
    else
      match execute_test_case fuel ev.stop tc with
      | .error e => (.error e, [Act.setBp i])
      | .ok case_result =>
        let acc2 : TestResults :=
          { total := acc.total + case_result.results.length,
            passed := acc.passed + countPass case_result.results,
            failed := acc.failed + countFail case_result.results,
            case_results := acc.case_results ++ [case_result] }
        if interactive ∧ anyNonPass case_result.results ∧ ev.consoleContinue = false then
          (.ok acc2, [Act.setBp i])
        else
          let next := execute_tests_loop fuel events interactive rest (i + 1) acc2
          (next.1, Act.setBp i :: Act.delBp i :: next.2)

/-- `execute_tests` (main.py lines 339-381). -/
def execute_tests (fuel : Nat) (events : Nat → CaseEvents) (interactive : Bool)
    (test_cases : List TestCase) : Except Unit TestResults × List Act :=
  execute_tests_loop fuel events interactive test_cases 0 {}

/-- The comment-block scanner of `parse_expected_values` (main.py lines
299-308): consume lines while they are `//` comments; a line splitting on
its first `:` into two parts yields a `Test` at 1-based line `i + 1`;
return the collected tests and the index of the first non-comment line. -/
def parseBlock (src : String) : List String → Nat → List Test × Nat
  | [], i => ([], i)
  | line :: rest, i =>
    let l := pyStrip line
    if pyStartsWith l "//" then
      let pb := parseBlock src rest (i + 1)
      match pySplitColon1 (pyStrip (stripLeadSlashes l)) with
      | some (var, value) =>
        (Test.mk src (i + 1) (pyStrip var) (pyStrip value) :: pb.1, pb.2)
      | none => pb
    else ([], i)

/-- One step of the per-file loop of `parse_expected_values` (main.py lines
292-312): a stripped line starting with `// Expected:` opens a block with
`start_line = i + 1`; the block runs while lines remain comments and
`end_line` is the index of the first non-comment line; scanning resumes
there via `rec` (the resumed-at line cannot itself be a marker, being a
non-comment line). -/
def scan_fileStep (src : String) (rec : List String → Nat → List TestCase) :
    List String → Nat → List TestCase
  | [], _ => []
  | line :: rest, i =>
    if pyStartsWith (pyStrip line) "// Expected:" then
      let pb := parseBlock src rest (i + 1)
      TestCase.mk src (i + 1) pb.2 pb.1 :: rec (rest.drop (pb.2 - (i + 1))) pb.2
    else rec rest (i + 1)

/-- The per-file loop, fueled: spelled with `Nat.rec` so the kernel can
evaluate it.  Each step consumes at least one line, so `length + 1` fuel
scans any file completely. -/
def scan_file (src : String) : Nat → List String → Nat → List TestCase :=
  fun fuel => @Nat.rec (fun _ => List String → Nat → List TestCase)
    (fun _ _ => []) (fun _ rec => scan_fileStep src rec) fuel

/-- `parse_expected_values` (main.py lines 287-313) over in-memory files
given as (path, lines); `readlines`-style trailing newlines are immaterial
because every consumer strips the line first. -/
def parse_expected_values (source_files : List (String × List String)) : List TestCase :=
  source_files.flatMap (fun p => scan_file p.1 (p.2.length + 1) p.2 0)

/-- The observable outcome of `run_tests`: the process exit status and
whether `LLDBDebugger.cleanup` ran before the process exited. -/
structure RunResult where
  exitStatus : Nat
  cleanupRan : Bool
deriving DecidableEq

/-- `run_tests` (main.py lines 316-336), given the outcome of
`debugger.setup()` and the inputs of `execute_tests`.  The `try` body runs
`setup`, `execute_tests` and the report; a raise is caught, logged, and the
`finally` clause runs `cleanup` before the function returns normally (exit
status 0).  When every step succeeds and `results.total != results.passed`,
`os._exit(1)` terminates the process immediately: per the Python
documentation it exits "without calling cleanup handlers", so the `finally`
clause — and with it `debugger.cleanup()` — never runs on that path. -/
def run_tests (setup : Except String Unit) (fuel : Nat) (events : Nat → CaseEvents)
    (interactive : Bool) (test_cases : List TestCase) : RunResult :=
  match setup with
  | .error _ => { exitStatus := 0, cleanupRan := true }
  | .ok _ =>
    match (execute_tests fuel events interactive test_cases).1 with
    | .error _ => { exitStatus := 0, cleanupRan := true }
    | .ok results =>
      if results.total ≠ results.passed then
        { exitStatus := 1, cleanupRan := false }
      else { exitStatus := 0, cleanupRan := true }

/-- Whether an `Except` result is a normal return. -/
def isOkB : Except ε α → Bool
  | .ok _ => true
  | .error _ => false

/-- Sum of the check counts of a list of case results. -/
def sumChecks (l : List CaseResult) : Nat :=
  (l.map (fun c => c.results.length)).sum

/-- The trace `[setBp i, delBp i, setBp (i+1), delBp (i+1), ...]` of a run
that deletes every breakpoint before moving on. -/
def bpTrace : Nat → Nat → List Act
  | _, 0 => []
  | i, n + 1 => Act.setBp i :: Act.delBp i :: bpTrace (i + 1) n

/-- Decidable equality for `Except`, for evaluating concrete runs. -/
instance {ε α : Type} [DecidableEq ε] [DecidableEq α] : DecidableEq (Except ε α) := fun x y =>
  match x, y with
  | .ok a, .ok b =>
    match decEq a b with
    | isTrue h => isTrue (congrArg Except.ok h)
    | isFalse h => isFalse (fun he => h (Except.ok.inj he))
  | .error a, .error b =>
    match decEq a b with
    | isTrue h => isTrue (congrArg Except.error h)
    | isFalse h => isFalse (fun he => h (Except.error.inj he))
  | .ok _, .error _ => isFalse (fun he => Except.noConfusion he)
  | .error _, .ok _ => isFalse (fun he => Except.noConfusion he)

/-- A live scalar of type `long` holding the given raw value string. -/
def intScalar (s : String) : Val :=
  .node "long" .cOther false "" (some s) none [] (fun _ => .invalid) 0 (fun _ _ => "")

/-- Concrete debuggee memory holding 10, 20, 30 as 8-byte integers at
addresses 0x100, 0x108, 0x110. -/
def memC8 : Nat → Val := fun a =>
  if a = 256 then intScalar "10"
  else if a = 264 then intScalar "20"
  else if a = 272 then intScalar "30"
  else .invalid

/-- The `data` member of the concrete slice: a `long` pointer to 0x100. -/
def dataC8 : Val :=
  .node "long *" .cOther false "" (some "0x100") none [] memC8 8 (fun _ _ => "")

/-- The `len` member of the concrete slice: 3. -/
def lenC8 : Val :=
  .node "long" .cOther false "" (some "3") none [] (fun _ => .invalid) 0 (fun _ _ => "")

/-- A concrete `[]long` slice of the 3 integers 10, 20, 30. -/
def sliceC8 : Val :=
  .node "[]long" .cOther false "" none none [("len", lenC8), ("data", dataC8)]
    (fun _ => .invalid) 0 (fun _ _ => "")

/-- A concrete `string` value with no backend summary and length 0. -/
def strC10 : Val :=
  .node "string" .cOther false "" none none
    [("len", intScalar "0"), ("data", intScalar "0x0")]
    (fun _ => .invalid) 0 (fun _ _ => "")

/-- A concrete check expecting `x == 5` at line 2. -/
def testFail : Test := ⟨"f.go", 2, "x", "5"⟩

/-- A concrete test case holding `testFail`; the frame of `evOk` has no
variable `x`, so the check fails. -/
def tcFail : TestCase := ⟨"f.go", 1, 2, [testFail]⟩

/-- A concrete check that passes against an empty frame: the unresolvable
name formats to `"None"`, matching the expected value. -/
def testPass : Test := ⟨"f.go", 2, "x", "None"⟩

/-- A concrete test case holding `testPass`. -/
def tcPass : TestCase := ⟨"f.go", 1, 2, [testPass]⟩

/-- Backend events: breakpoint and stop succeed, the stop is in `main` with
an empty frame, and the interactive console (if entered) continues. -/
def evOk : Nat → CaseEvents := fun _ => ⟨true, true, ⟨"main", ∅, []⟩, true⟩

/-- Backend events like `evOk`, but the user aborts in the console. -/
def evAbort : Nat → CaseEvents := fun _ => ⟨true, true, ⟨"main", ∅, []⟩, false⟩

/-- The dispatch conditions under which `format_value` reaches its final
(scalar/default) branch. -/
def isScalarDispatch (v : Val) : Bool :=
  !(pyStartsWith v.getTypeName "[]") && !v.isArrayTypeB
    && v.getTypeName ≠ "string"
    && v.getTypeName ≠ "complex64" && v.getTypeName ≠ "complex128"
    && v.getTypeClass ≠ TypeClass.cStruct && v.getTypeClass ≠ TypeClass.cClass

/-- The element-type aliasing of `format_slice`: the slice type name after
`[]`, passed through `type_mapping`. -/
def aliasElemName (tn : String) : String :=
  let t := (pySplitOn tn "[]").getLastD ""
  (type_mapping.lookup t).getD t

theorem mapSome_ok {e : Except Unit String} {r : Option String}
    (h : Option.some <$> e = .ok r) : r.isSome = true := by
  cases e with
  | error e => simp [Except.map, Functor.map] at h
  | ok a =>
    simp only [Functor.map, Except.map] at h
    cases h
    rfl

theorem format_value_zero (v : Val) : format_value 0 v = .error () := rfl

theorem format_value_succ (fuel : Nat) (v : Val) :
    format_value (fuel + 1) v = format_valueF (format_value fuel) v := rfl

theorem format_valueF_ok_isSome {fv : Val → Except Unit (Option String)} {v : Val}
    {r : Option String} (h : format_valueF fv v = .ok r) : r.isSome = true := by
  unfold format_valueF at h
  by_cases hv : v.isValid = true
  · rw [if_pos hv] at h
    split at h
    · exact mapSome_ok h
    · split at h
      · split at h
        · exact mapSome_ok h
        · exact mapSome_ok h
      · split at h
        · exact mapSome_ok h
        · split at h
          · exact mapSome_ok h
          · split at h
            · exact mapSome_ok h
            · split at h
              · cases h; rfl
              · split at h
                · cases h; rfl
                · cases h; rfl
  · rw [if_neg hv] at h
    cases h
    rfl

theorem format_value_ok_isSome :
    ∀ fuel v r, format_value fuel v = .ok r → r.isSome = true := by
  intro fuel
  cases fuel with
  | zero =>
    intro v r h
    rw [format_value_zero] at h
    exact Except.noConfusion h
  | succ n =>
    intro v r h
    rw [format_value_succ] at h
    exact format_valueF_ok_isSome h

/-- C9: `format_value` (and hence `get_variable_value` on any name) is total
over the modelled value trees and every normal return carries a string,
never the Python value `None`: an invalid handle, or a scalar with neither a
raw value nor a summary, yields the literal string `"None"`.  (Raised
exceptions, modelled by `.error`, are separate control flow and never
deliver `None` to a caller.) -/
theorem C9_format_value_never_none (fuel : Nat) (v : Val) :
    (∀ r, format_value fuel v = .ok r → r.isSome = true) ∧
    (1 ≤ fuel → v.isValid = false → format_value fuel v = .ok (some "None")) ∧
    (1 ≤ fuel → v.isValid = true → isScalarDispatch v = true → v.getValue = none →
      v.getSummary = none → format_value fuel v = .ok (some "None")) ∧
    (∀ frame name r, get_variable_value fuel frame name = .ok r → r.isSome = true) := by
  refine ⟨fun r h => format_value_ok_isSome fuel v r h, ?_, ?_, ?_⟩
  · intro hf hv
    cases fuel with
    | zero => omega
    | succ n =>
      rw [format_value_succ]
      simp [format_valueF, hv]
  · intro hf hv hsd hval hsum
    cases fuel with
    | zero => omega
    | succ n =>
      simp only [isScalarDispatch, Bool.and_eq_true, Bool.not_eq_true',
        decide_eq_true_eq] at hsd
      obtain ⟨⟨⟨⟨⟨⟨h1, h2⟩, h3⟩, h4⟩, h5⟩, h6⟩, h7⟩ := hsd
      rw [format_value_succ]
      simp [format_valueF, hv, h1, h2, h3, h4, h5, h6, h7, hval, hsum]
  · intro frame name r h
    exact format_value_ok_isSome fuel _ r h

theorem C9_witness : format_value 1 Val.invalid = .ok (some "None") :=
  (C9_format_value_never_none 1 Val.invalid).2.1 (le_refl 1) rfl

/-- C10: a `string` value with no backend summary and length 0 formats to
the literal token `"None"`, not the empty string, because the memory-read
fallback requires both `data` and `len` to be truthy. -/
theorem C10_string_len_zero (fuel : Nat) (v : Val) (lstr : String)
    (hvalid : v.isValid = true)
    (hname : v.getTypeName = "string")
    (harr : v.isArrayTypeB = false)
    (hsum : v.getSummary = none)
    (hlen : (v.childNamed "len").getValue = some lstr)
    (hl : pyInt? lstr = some 0) :
    format_value (fuel + 1) v = .ok (some "None") := by
  have hns : (pyStartsWith "string" "[]") = false := by decide
  rw [format_value_succ]
  unfold format_valueF
  rw [hvalid, hname]
  simp only [hns, harr, Bool.false_eq_true, if_false, if_true]
  unfold format_string
  rw [hsum, hlen]
  simp [optToExcept, hl, Functor.map, Except.map]

theorem C10_witness : format_value 1 strC10 = .ok (some "None") :=
  C10_string_len_zero 0 strC10 "0" rfl rfl rfl rfl rfl rfl

/-- C2 (counterexample): the claim says a check whose named variable cannot
be resolved produces status `error`; on the code, the unresolvable variable
`x` (empty frame) formats to the string `"None"`, so the outcome is `fail`,
not `error`. -/
theorem C2_counterexample :
    execute_single_variable_test 1 [] testFail =
      .ok { test := testFail, status := "fail", actual := some (ActualV.str "None") } := by
  decide

/-- C2 (amended): a non-sentinel check whose named variable cannot be
resolved still receives a formatted value — the string `"None"` — so its
outcome is `fail` (or `pass` when the expected text is literally `None`),
with the run continuing; the `error` status is unreachable because
`get_variable_value` never returns the Python value `None`. -/
theorem C2_unresolvable_yields_fail (fuel : Nat) (frame : List (String × Val))
    (test : Test)
    (hmiss : frame.lookup (normalize_name test.var_name) = none) :
    (execute_single_variable_test fuel frame test).map (fun r => r.status) ≠ .ok "error" ∧
    (1 ≤ fuel → (execute_single_variable_test fuel frame test).map (fun r => r.status) =
      .ok (if pyStrip test.expected_value = "None" then "pass" else "fail")) := by
  have hinv : FindVariable frame (normalize_name test.var_name) = Val.invalid := by
    unfold FindVariable
    rw [hmiss]
    rfl
  unfold execute_single_variable_test get_variable_value
  rw [hinv]
  cases fuel with
  | zero =>
    rw [format_value_zero]
    exact ⟨fun h => Except.noConfusion h, fun h => absurd h (by omega)⟩
  | succ n =>
    have hfv : format_value (n + 1) Val.invalid = .ok (some "None") := by
      rw [format_value_succ]
      simp [format_valueF, Val.isValid]
    rw [hfv]
    have hstrip : pyStrip "None" = "None" := by decide
    by_cases he : pyStrip test.expected_value = "None"
    · simp [hstrip, he, Except.map]
    · have hne : ¬ ("None" = pyStrip test.expected_value) := fun h => he h.symm
      simp [hstrip, he, hne, Except.map]

theorem C2_amended_witness :
    (execute_single_variable_test 1 [] testFail).map (fun r => r.status) = .ok "fail" := by
  have h := (C2_unresolvable_yields_fail 1 [] testFail rfl).2 (le_refl 1)
  have e : (if pyStrip testFail.expected_value = "None" then "pass" else "fail") = "fail" := by
    decide
  rw [e] at h
  exact h

/-- C8: a dynamic-sequence (slice) value formats by reading the parsed
`len`, formatting the element found at `base + i * element_size` for each
`i < n`, aliasing the element type name extracted from the slice type name
after `[]`, and rendering `[]ElementType[e0, e1, ...]`. -/
theorem C8_slice_rendering (fuel : Nat) (v lenV dataV : Val) (lstr dstr : String)
    (n base size : Nat) (es : List String)
    (hvalid : v.isValid = true)
    (hslice : pyStartsWith v.getTypeName "[]" = true)
    (hlen : v.childNamed "len" = lenV)
    (hlv : lenV.getValue = some lstr)
    (hparse : pyInt? lstr = some (Int.ofNat n))
    (hdata : v.childNamed "data" = dataV)
    (hdv : dataV.getValue = some dstr)
    (hhex : pyHex? dstr = some base)
    (hsize : dataV.ptrElemSize = size)
    (helems : formatList fuel
      ((List.range n).map (fun i => dataV.ptrMem (base + i * size))) = .ok es) :
    format_value (fuel + 1) v =
      .ok (some ("[]" ++ aliasElemName v.getTypeName ++ "["
        ++ pyJoin ", " es ++ "]")) := by
  unfold formatList at helems
  rw [format_value_succ]
  unfold format_valueF
  rw [if_pos hvalid, if_pos hslice]
  unfold format_sliceF
  rw [hlen, hlv]
  simp only [optToExcept, hparse, hdata, hdv, hhex, hsize]
  simp only [aliasElemName]
  rw [show (Int.ofNat n).toNat = n from rfl, helems]
  simp [Functor.map, Except.map]

theorem C8_witness : format_value 3 sliceC8 = .ok (some "[]int[10, 20, 30]") := by
  have h := C8_slice_rendering 2 sliceC8 lenC8 dataC8 "3" "0x100" 3 256 8
    ["10", "20", "30"] rfl rfl rfl rfl (by decide) rfl rfl (by decide) rfl (by decide)
  have e : ("[]" ++ aliasElemName sliceC8.getTypeName ++ "["
      ++ pyJoin ", " ["10", "20", "30"] ++ "]") = "[]int[10, 20, 30]" := by decide
  rw [e] at h
  exact h

/-- C7: a sentinel "all variables" check passes exactly when the
whitespace-split expected name set equals the captured in-scope set; on a
mismatch it fails, recording `missing = expected - actual` and
`extra = actual - expected`. -/
theorem C7_all_variables_set_comparison (test : Test) (names : Finset String) :
    ((execute_all_variables_test test names).status = "pass" ↔
      (pySplitWs test.expected_value).toFinset = names) ∧
    ((pySplitWs test.expected_value).toFinset = names →
      execute_all_variables_test test names =
        { test := test, status := "pass", actual := some (.names names) }) ∧
    ((pySplitWs test.expected_value).toFinset ≠ names →
      execute_all_variables_test test names =
        { test := test, status := "fail", actual := some (.names names),
          missing := some ((pySplitWs test.expected_value).toFinset \ names),
          extra := some (names \ (pySplitWs test.expected_value).toFinset) }) := by
  unfold execute_all_variables_test
  by_cases h : (pySplitWs test.expected_value).toFinset = names
  · simp [h]
  · simp [h]

theorem C7_witness :
    execute_all_variables_test (Test.mk "f.go" 3 "all variables" "a b c")
        ({"a", "b"} : Finset String) =
      { test := Test.mk "f.go" 3 "all variables" "a b c", status := "fail",
        actual := some (.names {"a", "b"}),
        missing := some {"c"}, extra := some ∅ } := by
  have h := (C7_all_variables_set_comparison (Test.mk "f.go" 3 "all variables" "a b c")
    {"a", "b"}).2.2 (by decide)
  exact h.trans (by decide)

theorem parseBlock_spec (src : String) :
    ∀ (rest : List String) (i : Nat),
      i ≤ (parseBlock src rest i).2 ∧
      ((parseBlock src rest i).1 ≠ [] → i < (parseBlock src rest i).2) ∧
      ((parseBlock src rest i).2 = i → (parseBlock src rest i).1 = []) := by
  intro rest
  induction rest with
  | nil =>
    intro i
    simp [parseBlock]
  | cons line rest ih =>
    intro i
    unfold parseBlock
    by_cases hc : pyStartsWith (pyStrip line) "//" = true
    · rw [if_pos hc]
      have h := ih (i + 1)
      cases hsp : pySplitColon1 (pyStrip (stripLeadSlashes (pyStrip line))) with
      | some pv =>
        cases pv with
        | mk var value =>
          simp only [hsp]
          refine ⟨by omega, fun _ => by omega, fun he => absurd he (by omega)⟩
      | none =>
        simp only [hsp]
        refine ⟨by omega, fun _ => by omega, fun he => absurd he (by omega)⟩
    · rw [if_neg hc]
      exact ⟨le_refl i, fun hne => absurd rfl hne, fun _ => rfl⟩

theorem scan_file_succ (src : String) (fuel : Nat) :
    scan_file src (fuel + 1) = scan_fileStep src (scan_file src fuel) := rfl

theorem scan_file_spec (src : String) :
    ∀ (fuel : Nat) (content : List String) (i : Nat) (tc : TestCase),
      tc ∈ scan_file src fuel content i →
      tc.start_line ≤ tc.end_line ∧
      (tc.tests ≠ [] → tc.start_line < tc.end_line) ∧
      (tc.end_line = tc.start_line → tc.tests = []) := by
  intro fuel
  induction fuel with
  | zero =>
    intro content i tc h
    exact absurd h (by simp [scan_file])
  | succ n ih =>
    intro content i tc h
    rw [scan_file_succ] at h
    cases content with
    | nil => simp [scan_fileStep] at h
    | cons line rest =>
      simp only [scan_fileStep] at h
      by_cases hc : pyStartsWith (pyStrip line) "// Expected:" = true
      · rw [if_pos hc] at h
        rcases List.mem_cons.mp h with heq | hmem
        · subst heq
          have hp := parseBlock_spec src rest (i + 1)
          exact ⟨by have := hp.1; simp only; omega,
            fun hne => by have := hp.2.1 hne; simp only; omega,
            fun he => hp.2.2 (by simpa using he)⟩
        · exact ih _ _ _ hmem
      · rw [if_neg hc] at h
        exact ih _ _ _ h

/-- C5 (counterexample): the claim says `end_line == start_line` iff the
case has zero checks; the file `["// Expected:", "// garbage"]` yields a
`TestCase` with zero checks (the malformed comment line has no colon and is
skipped) whose `end_line = 2` exceeds `start_line = 1`. -/
theorem C5_counterexample :
    ¬ (∀ tc ∈ parse_expected_values [("f.go", ["// Expected:", "// garbage"])],
        (tc.end_line = tc.start_line ↔ tc.tests = [])) := by decide

/-- C5 (amended): for every parsed `TestCase`, `end_line > start_line`
whenever at least one check was parsed, and `end_line == start_line` implies
the block was empty — but the converse fails: a block whose comment lines
are all malformed (no colon) has zero checks yet `end_line > start_line`,
since `end_line - start_line` counts consumed comment lines, not checks. -/
theorem C5_case_line_bounds (files : List (String × List String)) (tc : TestCase)
    (h : tc ∈ parse_expected_values files) :
    tc.start_line ≤ tc.end_line ∧
    (tc.tests ≠ [] → tc.start_line < tc.end_line) ∧
    (tc.end_line = tc.start_line → tc.tests = []) := by
  unfold parse_expected_values at h
  rw [List.mem_flatMap] at h
  obtain ⟨p, hp, hmem⟩ := h
  exact scan_file_spec p.1 _ p.2 0 tc hmem

theorem C5_witness :
    (TestCase.mk "g.go" 1 2 [Test.mk "g.go" 2 "x" "5"]).start_line ≤
      (TestCase.mk "g.go" 1 2 [Test.mk "g.go" 2 "x" "5"]).end_line ∧
    (TestCase.mk "g.go" 1 2 [Test.mk "g.go" 2 "x" "5"]).start_line <
      (TestCase.mk "g.go" 1 2 [Test.mk "g.go" 2 "x" "5"]).end_line := by
  have h := C5_case_line_bounds [("g.go", ["// Expected:", "// x: 5", "code"])]
    (TestCase.mk "g.go" 1 2 [Test.mk "g.go" 2 "x" "5"]) (by decide)
  exact ⟨h.1, h.2.1 (by decide)⟩

theorem countPass_add_countFail (l : List TestResult) :
    countPass l + countFail l = l.length := by
  induction l with
  | nil => rfl
  | cons r rest ih =>
    unfold countPass countFail at *
    simp only [List.filter_cons, decide_not] at *
    by_cases h : r.status = "pass"
    · simp [h]
      omega
    · simp [h]
      omega

theorem sumChecks_append (l : List CaseResult) (c : CaseResult) :
    sumChecks (l ++ [c]) = sumChecks l + c.results.length := by
  unfold sumChecks
  simp

theorem execute_tests_loop_invariant (fuel : Nat) (events : Nat → CaseEvents)
    (interactive : Bool) :
    ∀ (cases : List TestCase) (i : Nat) (acc r : TestResults),
      acc.total = acc.passed + acc.failed →
      acc.total = sumChecks acc.case_results →
      (execute_tests_loop fuel events interactive cases i acc).1 = .ok r →
      r.total = r.passed + r.failed ∧ r.total = sumChecks r.case_results := by
  intro cases
  induction cases with
  | nil =>
    intro i acc r h1 h2 h
    unfold execute_tests_loop at h
    cases Except.ok.inj h
    exact ⟨h1, h2⟩
  | cons tc rest ih =>
    intro i acc r h1 h2 h
    unfold execute_tests_loop at h
    by_cases hbp : (events i).breakpointOk = false
    · rw [if_pos hbp] at h
      simp at h
    · rw [if_neg hbp] at h
      by_cases hst : (events i).stopOk = false
      · rw [if_pos hst] at h
        simp at h
      · rw [if_neg hst] at h
        cases hcr : execute_test_case fuel (events i).stop tc with
        | error e =>
          rw [hcr] at h
          simp at h
        | ok case_result =>
          rw [hcr] at h
          simp only [] at h
          have hcount := countPass_add_countFail case_result.results
          by_cases habort : interactive ∧ anyNonPass case_result.results = true ∧
              (events i).consoleContinue = false
          · rw [if_pos habort] at h
            cases Except.ok.inj h
            constructor
            · simp only
              omega
            · simp only
              rw [sumChecks_append]
              omega
          · rw [if_neg habort] at h
            refine ih (i + 1) _ r ?_ ?_ h
            · simp only
              omega
            · simp only
              rw [sumChecks_append]
              omega

/-- C6: every run that returns a `RunSummary` — including a zero-case run
and a run halted early by a user abort — satisfies
`total = passed + failed` and `total = Σ len(case.checks)` over the
recorded case results. -/
theorem C6_summary_invariant (fuel : Nat) (events : Nat → CaseEvents)
    (interactive : Bool) (cases : List TestCase) (r : TestResults)
    (h : (execute_tests fuel events interactive cases).1 = .ok r) :
    r.total = r.passed + r.failed ∧ r.total = sumChecks r.case_results := by
  unfold execute_tests at h
  exact execute_tests_loop_invariant fuel events interactive cases 0 {} r rfl rfl h

theorem C6_witness :
    ({} : TestResults).total = ({} : TestResults).passed + ({} : TestResults).failed ∧
    ({} : TestResults).total = sumChecks ({} : TestResults).case_results :=
  C6_summary_invariant 1 evOk false [] {} rfl

theorem execute_tests_loop_trace_shape (fuel : Nat) (events : Nat → CaseEvents)
    (interactive : Bool) :
    ∀ (cases : List TestCase) (i : Nat) (acc : TestResults),
      isOkB (execute_tests_loop fuel events interactive cases i acc).1 = true →
      (execute_tests_loop fuel events interactive cases i acc).2 =
          bpTrace i cases.length ∨
      ∃ k, k < cases.length ∧
        (execute_tests_loop fuel events interactive cases i acc).2 =
          bpTrace i k ++ [Act.setBp (i + k)] := by
  intro cases
  induction cases with
  | nil =>
    intro i acc _
    left
    rfl
  | cons tc rest ih =>
    intro i acc h
    unfold execute_tests_loop at h ⊢
    by_cases hbp : (events i).breakpointOk = false
    · rw [if_pos hbp] at h
      simp [isOkB] at h
    · rw [if_neg hbp] at h ⊢
      by_cases hst : (events i).stopOk = false
      · rw [if_pos hst] at h
        simp [isOkB] at h
      · rw [if_neg hst] at h ⊢
        cases hcr : execute_test_case fuel (events i).stop tc with
        | error e =>
          rw [hcr] at h
          simp [isOkB] at h
        | ok case_result =>
          rw [hcr] at h
          simp only [] at h ⊢
          by_cases habort : interactive ∧ anyNonPass case_result.results = true ∧
              (events i).consoleContinue = false
          · rw [if_pos habort]
            right
            refine ⟨0, by exact Nat.succ_pos rest.length, ?_⟩
            simp [bpTrace]
          · rw [if_neg habort] at h
            rw [if_neg habort]
            rcases ih (i + 1) _ h with ht | ⟨k, hk, ht⟩
            · left
              show Act.setBp i :: Act.delBp i :: _ = bpTrace i (rest.length + 1)
              unfold bpTrace
              rw [ht]
            · right
              refine ⟨k + 1, by simp only [List.length_cons]; omega, ?_⟩
              show Act.setBp i :: Act.delBp i :: _ =
                bpTrace i (k + 1) ++ [Act.setBp (i + (k + 1))]
              unfold bpTrace
              simp only [List.cons_append]
              rw [ht]
              have he : i + 1 + k = i + (k + 1) := by omega
              rw [he]

/-- C4 (counterexample): the claim says the case's breakpoint is deleted
regardless of a user abort in the interactive console; on the code, the
abort `break` precedes `BreakpointDelete`, so the aborting case's
breakpoint is never deleted even though the run returns normally. -/
theorem C4_counterexample :
    isOkB (execute_tests 2 evAbort true [tcFail]).1 = true ∧
    Act.delBp 0 ∉ (execute_tests 2 evAbort true [tcFail]).2 := by decide

/-- C4 (amended): in every run that returns normally, interactive or not,
breakpoint handling has one of two shapes.  Either no user abort occurred
and every case's breakpoint was deleted immediately after the case —
before the next case's breakpoint is set or the loop returns — or the user
aborted at some case `k`: every case before `k` had its breakpoint deleted
before moving on, and the aborting case's breakpoint was set but never
deleted.  In particular this covers interactive runs whose console
continued and the cases completed before a later abort. -/
theorem C4_breakpoint_deletion (fuel : Nat) (events : Nat → CaseEvents)
    (interactive : Bool) (cases : List TestCase)
    (h : isOkB (execute_tests fuel events interactive cases).1 = true) :
    (execute_tests fuel events interactive cases).2 = bpTrace 0 cases.length ∨
    ∃ k, k < cases.length ∧
      (execute_tests fuel events interactive cases).2 =
        bpTrace 0 k ++ [Act.setBp k] := by
  unfold execute_tests at h ⊢
  rcases execute_tests_loop_trace_shape fuel events interactive cases 0 {} h with
    ht | ⟨k, hk, ht⟩
  · exact Or.inl ht
  · exact Or.inr ⟨k, hk, by rw [ht, Nat.zero_add]⟩

/-- C4 witness: an interactive run whose failing case's console continues
(no abort) still deletes the case's breakpoint before returning. -/
theorem C4_witness :
    (execute_tests 2 evOk true [tcFail]).2 = bpTrace 0 1 := by
  rcases C4_breakpoint_deletion 2 evOk true [tcFail] (by decide) with h | ⟨k, hk, h⟩
  · exact h
  · have hl : k < 1 := by simpa using hk
    have hz : k = 0 := by omega
    subst hz
    exact absurd h (by decide)

/-- C1 (counterexample): the claim says an error raised during setup is
treated as failure (non-zero exit status); on the code, the exception is
caught and logged, `run_tests` returns normally, and the process exits 0. -/
theorem C1_counterexample :
    run_tests (.error "Failed to create target") 1 evOk false [] =
      { exitStatus := 0, cleanupRan := true } := by decide

/-- C1 (amended): the exit status is 1 exactly when setup and case
execution complete without an exception and some check did not pass
(`total != passed`); in every other situation — all checks passed, or an
exception was raised during setup or execution (it is logged) — the process
exits 0. -/
theorem C1_exit_status (setup : Except String Unit) (fuel : Nat)
    (events : Nat → CaseEvents) (interactive : Bool) (cases : List TestCase) :
    ((run_tests setup fuel events interactive cases).exitStatus = 1 ↔
      (setup = .ok () ∧ ∃ res,
        (execute_tests fuel events interactive cases).1 = .ok res ∧
        res.total ≠ res.passed)) ∧
    ((run_tests setup fuel events interactive cases).exitStatus = 0 ∨
      (run_tests setup fuel events interactive cases).exitStatus = 1) := by
  unfold run_tests
  cases setup with
  | error e => simp
  | ok u =>
    cases u
    cases hex : (execute_tests fuel events interactive cases).1 with
    | error e => simp [hex]
    | ok res =>
      by_cases ht : res.total = res.passed
      · simp [hex, ht]
      · simp [hex, ht]

/-- C3 (counterexample): the claim says the debug-session cleanup runs on
every exit path, including a run that ends because some check failed; on
the code that path exits through `os._exit(1)` inside the `try` block,
which terminates the process without running the `finally` clause, so
`debugger.cleanup()` is skipped. -/
theorem C3_counterexample :
    run_tests (.ok ()) 2 evOk false [tcFail] =
      { exitStatus := 1, cleanupRan := false } := by decide

/-- C3 (amended): the cleanup runs exactly on the exit paths with status 0
(normal completion with all checks passed, and caught exceptions during
setup or execution); the failing-checks path exits with status 1 via
`os._exit`, bypassing the `finally`-based cleanup. -/
theorem C3_cleanup_iff_exit_zero (setup : Except String Unit) (fuel : Nat)
    (events : Nat → CaseEvents) (interactive : Bool) (cases : List TestCase) :
    (run_tests setup fuel events interactive cases).cleanupRan = true ↔
      (run_tests setup fuel events interactive cases).exitStatus = 0 := by
  unfold run_tests
  cases setup with
  | error e => simp
  | ok u =>
    cases u
    cases (execute_tests fuel events interactive cases).1 with
    | error e => simp
    | ok res =>
      by_cases ht : res.total = res.passed <;> simp [ht]

/-- C1 witness: a completed run with one failing check exits 1. -/
theorem C1_witness :
    (run_tests (.ok ()) 2 evOk false [tcFail]).exitStatus = 1 :=
  (C1_exit_status (.ok ()) 2 evOk false [tcFail]).1.mpr
    ⟨rfl, TestResults.mk 1 0 1
      [CaseResult.mk tcFail "main"
        [TestResult.mk testFail "fail" (some (ActualV.str "None")) none none none]],
      by decide, by decide⟩

/-- C3 witness: a run whose checks all pass exits 0 and runs cleanup. -/
theorem C3_witness :
    (run_tests (.ok ()) 1 evOk false []).cleanupRan = true :=
  (C3_cleanup_iff_exit_zero (.ok ()) 1 evOk false []).mpr (by decide)

end LLDBTest
